import Mathlib

/-!
Verification development for the `asbest` task-orchestration library
(the Flow source in `src/unnamed/part_000`, of which `src/src/task.js`
is an earlier revision).

The source is single-context cooperative JavaScript.  We embed it shallowly:

* `JsValue` models the JavaScript values that flow through actions
  (`undefined`, `null`, booleans, numbers, strings, arrays, plain objects).
* `TaskState` models the mutable fields of a `Task`
  (`status`, `result`, `error`, `ticks`, `totalTicks`, `isTicking`);
  the code's status strings `created` / `execute` / `done` / `error`
  become the constructors of `Status` (the spec calls the latter two
  states `executing` and `failed`).
* Actions are modelled as pure functions from their input to
  `Except JsValue JsValue` — a thrown value or a returned value.
-/

/-- JavaScript values, as far as the library observes them. -/
inductive JsValue where
  | undef
  | null
  | bool (b : Bool)
  | num (n : Int)
  | str (s : String)
  | arr (xs : List JsValue)
  | obj (fields : List (String × JsValue))

/-- JavaScript truthiness: `input || {}` takes the right branch exactly on
falsy values. -/
def JsValue.isFalsy : JsValue → Bool
  | .undef => true
  | .null => true
  | .bool b => !b
  | .num n => n == 0
  | .str s => s == ""
  | .arr _ => false
  | .obj _ => false

/-- The status strings used by `Task.state` / `Task.execute`. -/
inductive Status where
  | created
  | execute
  | done
  | error
deriving DecidableEq

/-- The mutable fields of a `Task` instance. -/
structure TaskState where
  status : Status := .created
  result : Option JsValue := none
  error : Option JsValue := none
  ticks : Nat := 0
  totalTicks : Nat := 0
  isTicking : Bool := false

/-!
## `Task` operations

`Task.execute(input)` runs `this.state('execute')`, awaits the action, and
either stores the result and runs `this.state('done')`, or stores the error,
emits `'error'`, sets `this.status = 'error'` and rethrows.
`Task.progress(ticks)` runs `this.ticks = ticks` and emits `'progress'`.

For the lifecycle claims we model the public operations as a list of
`TaskOp`s applied in order; an execute operation carries the outcome of the
(awaited) action.  `applyOp` also reports the statuses the operation makes
the task pass through, so a status trace can be stated.
-/

/-- A public operation on a `Task`: `execute` (with the action's outcome) or
`progress n`. -/
inductive TaskOp where
  | executeOp (outcome : Except JsValue JsValue)
  | progressOp (n : Nat)

/-- One public operation, following `Task.execute` / `Task.progress`
line by line; returns the new state and the statuses entered. -/
def applyOp (t : TaskState) : TaskOp → TaskState × List Status
  | .executeOp (.ok v) =>
      ({ t with status := .done, result := some v }, [.execute, .done])
  | .executeOp (.error e) =>
      ({ t with status := .error, error := some e }, [.execute, .error])
  | .progressOp n => ({ t with ticks := n }, [])

/-- Apply a sequence of operations, concatenating the status traces. -/
def runOps (t : TaskState) : List TaskOp → TaskState × List Status
  | [] => (t, [])
  | op :: ops =>
      let s := applyOp t op
      let r := runOps s.1 ops
      (r.1, s.2 ++ r.2)

/-- Number of `executeOp`s in an operation sequence. -/
def execCount : List TaskOp → Nat
  | [] => 0
  | .executeOp _ :: ops => execCount ops + 1
  | .progressOp _ :: ops => execCount ops

/-!
## `TaskWithQueue`: queue mutation

```js
allowTaskAddition() {
  return this.status !== 'done' && this.status !== 'error'
}
prependTask(task) {
  if (this.allowTaskAddition()) {
    throw new Error("Can't add tasks after list is finished or a task failed");
  }
  this.tasks.splice(this.taskIndex, 0, task);
  this.totalTicks++;
}
addTask(task) {
  if (this.allowTaskAddition()) {
    throw new Error("Can't add tasks after list is finished or a task failed");
  }
  this.tasks.push(task);
  this.totalTicks++;
}
```

The guard is kept exactly as written (including the evident inversion: the
error is thrown when `allowTaskAddition()` is `true`).  The queue element
type is a parameter; a throw is an `Except.error` carrying the thrown value.
-/

/-- The message of the structural error thrown by `addTask` / `prependTask`. -/
def structuralError : JsValue :=
  .str "Can\x27t add tasks after list is finished or a task failed"

/-- The queue-bearing fields of a `TaskWithQueue`. -/
structure QueueState (α : Type) where
  status : Status := .created
  tasks : List α := []
  taskIndex : Nat := 0
  totalTicks : Nat := 0
deriving DecidableEq

/-- `TaskWithQueue.allowTaskAddition`. -/
def allowTaskAddition (q : QueueState α) : Bool :=
  q.status != .done && q.status != .error

/-- `TaskWithQueue.addTask`, guard exactly as in the source. -/
def addTask (q : QueueState α) (t : α) : Except JsValue (QueueState α) :=
  if allowTaskAddition q then
    .error structuralError
  else
    .ok { q with tasks := q.tasks ++ [t], totalTicks := q.totalTicks + 1 }

/-- `TaskWithQueue.prependTask` (`splice(taskIndex, 0, task)` inserts at the
cursor), guard exactly as in the source. -/
def prependTask (q : QueueState α) (t : α) : Except JsValue (QueueState α) :=
  if allowTaskAddition q then
    .error structuralError
  else
    .ok { q with
          tasks := q.tasks.take q.taskIndex ++ t :: q.tasks.drop q.taskIndex,
          totalTicks := q.totalTicks + 1 }

/-!
## `TaskList.runTasks`: the sequential lane

```js
async runTasks(input) {
  let state = input || {};
  let last = false;

  while (this.taskIndex < this.tasks.length) {
    this.empty = false;
    let task = this.tasks[this.taskIndex];
    // (subscribe to the child's error/execute/progress/done signals,
    //  re-emitting them as child/error, child/execute, ...)
    last = await task.execute(this.isQueue ? input : {state, last, controller: this.controller});
    this.progress(this.taskIndex++);

    if (this.tasks.length <= this.taskIndex) {
      // Emit empty event then stay idle in case we've been ordered to wait
      this.emit('empty', this);
      this.empty = true;
      await this.stayIdle();
    }
  }

  return last;
}
```

We model a run in which the children's actions do not mutate the queue
(any attempt would throw through the inverted `addTask` guard anyhow) and
in which no external party pauses the lane, so `stayIdle` performs a single
cooperative suspension and returns (`wait` is `false`; the `do`/`while`
body runs once).  This is the situation of every directly executed lane.
`state` is never reassigned in the loop, so the same `state` value is
passed to every child.

The run is fully described by a `LaneTrace`:
per-child inputs and results in execution order, the values carried by the
lane's own `progress` emissions, the number of `'empty'` emissions and of
cooperative suspensions, the `'error'` values emitted by children, the
final child `TaskState`s, and the value `runTasks` returns or throws.
-/

/-- A controller reference: scopes are named by numeric ids
(`TaskList` sets `this.controller = controller || this`). -/
abbrev Ctrl := Nat

/-- The input a child's `execute` receives:
`this.isQueue ? input : {state, last, controller: this.controller}`. -/
inductive ChildInput where
  | raw (v : JsValue)
  | ctx (state : JsValue) (last : JsValue) (controller : Ctrl)

/-- Is this input the `{state, last, controller}` context object? -/
def ChildInput.isCtx : ChildInput → Bool
  | .raw _ => false
  | .ctx _ _ _ => true

/-- A wrapped action: the child's `action(input, task)`, modelled as a pure
function from the input to a thrown or returned value. -/
def JsAction : Type := ChildInput → Except JsValue JsValue

/-- Everything observable about one `runTasks` run. -/
structure LaneTrace where
  childInputs : List ChildInput
  childResults : List JsValue
  progressEvents : List Nat
  emptyEvents : Nat
  suspensions : Nat
  errorEvents : List JsValue
  finalStates : List TaskState
  result : Except JsValue JsValue

/-- Final state of a child whose action returned `v`
(`execute` stores the result and reaches `'done'`). -/
def doneState (v : JsValue) : TaskState :=
  { status := .done, result := some v }

/-- Final state of a child whose action threw `e`
(`execute` stores the error, emits `'error'`, sets status `'error'`). -/
def failState (e : JsValue) : TaskState :=
  { status := .error, error := some e }

/-- The input the child at the cursor receives. -/
def mkChildInput (isQueue : Bool) (input state last : JsValue) (ctrl : Ctrl) :
    ChildInput :=
  if isQueue then .raw input else .ctx state last ctrl

/-- The `while` loop of `runTasks`, with cursor `idx` and accumulator
`last`; the untouched queue means the list of actions still to run is
always `actions.drop idx`, so the loop recurses structurally on it
(`idx < tasks.length` iff that suffix is non-empty).  A child failure
propagates out of the loop (the `await` rethrows); a completed child
contributes its result, a `progress` emission carrying the pre-increment
cursor, and — when the queue is then exhausted — one `'empty'` emission
followed by one cooperative suspension. -/
def runTasksGo (isQueue : Bool) (input : JsValue) (ctrl : Ctrl)
    (state : JsValue) : List JsAction → Nat → JsValue → LaneTrace
  | [], _, last =>
      { childInputs := []
        childResults := []
        progressEvents := []
        emptyEvents := 0
        suspensions := 0
        errorEvents := []
        finalStates := []
        result := .ok last }
  | act :: pending, idx, last =>
      let childIn := mkChildInput isQueue input state last ctrl
      match act childIn with
      | .error e =>
          { childInputs := [childIn]
            childResults := []
            progressEvents := []
            emptyEvents := 0
            suspensions := 0
            errorEvents := [e]
            finalStates := failState e :: pending.map (fun _ => {})
            result := .error e }
      | .ok v =>
          let rest := runTasksGo isQueue input ctrl state pending (idx + 1) v
          let atEnd : Nat := if pending.isEmpty then 1 else 0
          { childInputs := childIn :: rest.childInputs
            childResults := v :: rest.childResults
            progressEvents := idx :: rest.progressEvents
            emptyEvents := atEnd + rest.emptyEvents
            suspensions := atEnd + rest.suspensions
            errorEvents := rest.errorEvents
            finalStates := doneState v :: rest.finalStates
            result := rest.result }

/-- The `state` binding: `let state = input || {}`. -/
def stateInit (input : JsValue) : JsValue :=
  if input.isFalsy then .obj [] else input

/-- `TaskList.runTasks(input)` for a lane whose queue holds the given
actions and that is not externally paused. -/
def runTasks (isQueue : Bool) (input : JsValue) (ctrl : Ctrl)
    (actions : List JsAction) : LaneTrace :=
  runTasksGo isQueue input ctrl (stateInit input) actions 0 (.bool false)

/-- The lane's own `execute` wrapper around `runTasks`: the lane `Task`'s
final state (status/result/error as `Task.execute` leaves them, `ticks`
as left by the last `progress` emission, `totalTicks` from the
`TaskWithQueue` constructor). -/
def laneExecute (isQueue : Bool) (input : JsValue) (ctrl : Ctrl)
    (actions : List JsAction) : TaskState × LaneTrace :=
  let tr := runTasks isQueue input ctrl actions
  let base : TaskState :=
    { ticks := tr.progressEvents.getLastD 0
      totalTicks := actions.length
      isTicking := true }
  match tr.result with
  | .ok v => ({ base with status := .done, result := some v }, tr)
  | .error e => ({ base with status := .error, error := some e }, tr)

/-!
## `TaskBucket`: the bounded distributor

```js
checkDone() {
  for (let taskList of this.taskLists) {
    if (!taskList.empty) return;
  }
  for (let taskList of this.taskLists) {
    taskList.resume();
  }
}

async runTasks(input) {
  while (this.taskLists.length < this.parallel) {
    let taskList = new TaskList({tasks: [], controller: this, isQueue: true});
    taskList.pause();
    // (re-emit child/* signals; progress(this.ticks + 1) on child/done)
    taskList.on('empty', (list) => {
      if (this.taskIndex >= this.tasks.length) {
        this.checkDone();
        return;
      }
      list.addTask(this.tasks[this.taskIndex++]);
    });
    this.taskLists.push(taskList);
  }

  await Promise.all(this.taskLists.map((task) => task.execute(input)));

  if (this.collect) {
    return this.collect(this.tasks, input);
  }
  return this.tasks.map((x) => x.result);
}
```

The bucket's child tasks are named by their index `0, …, m-1` into the
bucket's queue; `childStates` holds their (shared) `Task` states and
`bucketActions` their actions.  A pool lane's queue holds such indices.

Events are synchronous in Node's `EventEmitter`: a lane's `'empty'`
emission runs the bucket's handler before `this.empty = true` executes,
and an exception thrown by the handler propagates out of `emit`, i.e. out
of the lane's `runTasks`.  `checkDone` can therefore never resume anyone
(the emitting lane's `empty` flag is still `false` when it runs), so a
lane that enters `stayIdle` with `wait` set is never woken: the model
reports it as `blocked`.  Because every pool lane also finishes or blocks
without any interleaving point that could hand control to another lane
before it settles, `Promise.all` is modelled by running the lanes in
order, threading the bucket state. -/

/-- A pool lane: `TaskList` queue fields plus `wait` / `empty`
(queue entries are bucket child indices). -/
structure PoolLane extends QueueState Nat where
  wait : Bool := false
  empty : Bool := false
deriving DecidableEq

/-- The distributor's state: its own queue of child indices
(`taskIndex` is the drain cursor), the lane pool, the children's shared
`Task` states, and the `clearing` flag (never set in the source). -/
structure BucketSt where
  qstate : QueueState Nat
  lanes : List PoolLane
  childStates : List TaskState
  clearing : Bool := false

/-- `TaskBucket.checkDone`: return unless every lane's `empty` flag is set;
otherwise `resume()` (clear `wait`) on every lane. -/
def checkDone (lanes : List PoolLane) : List PoolLane :=
  if lanes.all (·.empty) then lanes.map (fun l => { l with wait := false })
  else lanes

/-- The bucket's `'empty'` handler for lane `i`.  Mirrors the source,
including evaluation order: `this.tasks[this.taskIndex++]` increments the
drain cursor before `addTask` runs, so a throw from `addTask` (the inverted
guard) leaves the cursor incremented and the lane's queue untouched.
Returns the new bucket state and the value thrown, if any. -/
def onEmpty (b : BucketSt) (i : Nat) : BucketSt × Option JsValue :=
  if b.qstate.taskIndex ≥ b.qstate.tasks.length then
    ({ b with lanes := checkDone b.lanes }, none)
  else
    match b.qstate.tasks.get? b.qstate.taskIndex, b.lanes.get? i with
    | some tid, some lane =>
        let b1 : BucketSt :=
          { b with qstate := { b.qstate with taskIndex := b.qstate.taskIndex + 1 } }
        match addTask lane.toQueueState tid with
        | .error e => (b1, some e)
        | .ok q =>
            ({ b1 with lanes := b1.lanes.set i { lane with toQueueState := q } },
             none)
    | _, _ => (b, none)

/-- How one pool-lane execution can end: settled with a value or a thrown
error, or parked forever inside `stayIdle` (`wait` set and nobody left to
clear it). -/
inductive LaneOutcome where
  | finished (r : Except JsValue JsValue)
  | blocked

/-- `true` iff the lane parked in `stayIdle` without being resumed. -/
def LaneOutcome.isBlocked : LaneOutcome → Bool
  | .finished _ => false
  | .blocked => true

/-- What one pool-lane execution did: its outcome, the bucket children it
executed (in order), and how many `'empty'` signals it emitted. -/
structure LaneReport where
  outcome : LaneOutcome
  executed : List Nat
  emptyEmits : Nat

/-- Replace lane `i` of the bucket. -/
def setLane (b : BucketSt) (i : Nat) (l : PoolLane) : BucketSt :=
  { b with lanes := b.lanes.set i l }

/-- One pool lane's `runTasks` loop (lane `i`, `isQueue` mode: children get
the raw `input`), interleaved with the bucket's `'empty'` handler, starting
from accumulator `last`. -/
def fedLaneRun (bucketActions : List JsAction) (input : JsValue) :
    Nat → BucketSt → Nat → JsValue → BucketSt × LaneReport
  | 0, b, _, _ =>
      (b, { outcome := .blocked, executed := [], emptyEmits := 0 })
  | fuel + 1, b, i, last =>
      match b.lanes.get? i with
      | none =>
          (b, { outcome := .finished (.ok last), executed := [], emptyEmits := 0 })
      | some lane =>
          if lane.taskIndex < lane.tasks.length then
            let lane0 := { lane with empty := false }
            let tid := lane.tasks.getD lane.taskIndex 0
            let act := bucketActions.getD tid (fun _ => .ok .undef)
            match act (.raw input) with
            | .error e =>
                -- the child's execute rethrows; the lane's runTasks aborts
                let b1 := setLane b i lane0
                let b2 :=
                  { b1 with childStates := b1.childStates.set tid (failState e) }
                (b2, { outcome := .finished (.error e), executed := [tid],
                       emptyEmits := 0 })
            | .ok v =>
                let lane1 :=
                  { lane0 with toQueueState :=
                      { lane0.toQueueState with taskIndex := lane0.taskIndex + 1 } }
                let b1 := setLane b i lane1
                let b2 :=
                  { b1 with childStates := b1.childStates.set tid (doneState v) }
                if lane1.tasks.length ≤ lane1.taskIndex then
                  let eh := onEmpty b2 i
                  match eh.2 with
                  | some e =>
                      -- the handler threw through emit, out of runTasks
                      (eh.1, { outcome := .finished (.error e), executed := [tid],
                               emptyEmits := 1 })
                  | none =>
                      let b3 :=
                        match eh.1.lanes.get? i with
                        | some lane2 => setLane eh.1 i { lane2 with empty := true }
                        | none => eh.1
                      match b3.lanes.get? i with
                      | some lane3 =>
                          if lane3.wait then
                            (b3, { outcome := .blocked, executed := [tid],
                                   emptyEmits := 1 })
                          else
                            let r := fedLaneRun bucketActions input fuel b3 i v
                            (r.1, { outcome := r.2.outcome,
                                    executed := tid :: r.2.executed,
                                    emptyEmits := 1 + r.2.emptyEmits })
                      | none =>
                          (b3, { outcome := .finished (.ok v), executed := [tid],
                                 emptyEmits := 1 })
                else
                  let r := fedLaneRun bucketActions input fuel b2 i v
                  (r.1, { outcome := r.2.outcome,
                          executed := tid :: r.2.executed,
                          emptyEmits := r.2.emptyEmits })
          else
            (b, { outcome := .finished (.ok last), executed := [], emptyEmits := 0 })

/-- A pool lane's full `execute(input)`: status `'execute'` on entry, then
`runTasks`, then `'done'` / `'error'` (a blocked lane keeps status
`'execute'`). -/
def fedLaneExecute (bucketActions : List JsAction) (input : JsValue)
    (fuel : Nat) (b : BucketSt) (i : Nat) : BucketSt × LaneReport :=
  let b0 :=
    match b.lanes.get? i with
    | some lane => setLane b i { lane with status := .execute }
    | none => b
  let r := fedLaneRun bucketActions input fuel b0 i (.bool false)
  match r.2.outcome, r.1.lanes.get? i with
  | .finished (.ok _), some lane =>
      (setLane r.1 i { lane with status := .done }, r.2)
  | .finished (.error _), some lane =>
      (setLane r.1 i { lane with status := .error }, r.2)
  | _, _ => r

/-- A freshly constructed pool lane: empty queue, then `taskList.pause()`. -/
def initPoolLane : PoolLane :=
  { status := .created, tasks := [], taskIndex := 0, totalTicks := 0,
    wait := true, empty := false }

/-- The bucket state right after `runTasks` built the pool: the bucket
itself is mid-`execute`, its queue holds the `m` children (named by index),
its drain cursor is `0`, and there are `p` paused empty lanes. -/
def mkBucket (p m : Nat) : BucketSt :=
  { qstate := { status := .execute, tasks := List.range m, taskIndex := 0,
                totalTicks := m }
    lanes := List.replicate p initPoolLane
    childStates := List.replicate m {} }

/-- Run the pool lanes, threading the bucket state. -/
def runPoolGo (bucketActions : List JsAction) (input : JsValue) (fuel : Nat) :
    BucketSt → List Nat → BucketSt × List LaneReport
  | b, [] => (b, [])
  | b, i :: is =>
      let r := fedLaneExecute bucketActions input fuel b i
      let rest := runPoolGo bucketActions input fuel r.1 is
      (rest.1, r.2 :: rest.2)

/-- `Promise.all` over already-settled executions: the first rejection in
settle order rejects the aggregate, otherwise it resolves with all
values. -/
def promiseAll : List (Except JsValue JsValue) → Except JsValue (List JsValue)
  | [] => .ok []
  | .error e :: _ => .error e
  | .ok v :: rs => (promiseAll rs).map (v :: ·)

/-- Everything `TaskBucket.runTasks` leaves behind: the final bucket state,
one report per lane, and the bucket's own outcome — `none` when some lane
blocked (the `Promise.all` never settles, so `runTasks` never returns). -/
structure BucketRun where
  bucket : BucketSt
  reports : List LaneReport
  result : Option (Except JsValue JsValue)

/-- `TaskBucket.runTasks(input)`: build `p` paused empty lanes, execute
them all, await the aggregate, then return `collect(tasks, input)` if a
collector was supplied and the ordered child results otherwise
(an unset `result` field reads as `undefined`). -/
def bucketRunTasks (p : Nat) (bucketActions : List JsAction) (input : JsValue)
    (collect : Option (List TaskState → JsValue → JsValue)) : BucketRun :=
  let b0 := mkBucket p bucketActions.length
  let fuel := bucketActions.length + 2
  let r := runPoolGo bucketActions input fuel b0 (List.range p)
  let b1 := r.1
  if (r.2.map (·.outcome)).any (·.isBlocked) then
    { bucket := b1, reports := r.2, result := none }
  else
    match promiseAll (r.2.map fun rep =>
        match rep.outcome with
        | .finished e => e
        | .blocked => .ok .undef) with
    | .error e => { bucket := b1, reports := r.2, result := some (.error e) }
    | .ok _ =>
        let v :=
          match collect with
          | some f => f b1.childStates input
          | none => .arr (b1.childStates.map fun t => t.result.getD .undef)
        { bucket := b1, reports := r.2, result := some (.ok v) }



/-!
## General lemmas about the lane loop
-/

/-- The `state` component of a child input, when it is a context object. -/
def ChildInput.stateOf : ChildInput → Option JsValue
  | .raw _ => none
  | .ctx s _ _ => some s

/-- The `controller` component of a child input, when it is a context
object. -/
def ChildInput.ctrlOf : ChildInput → Option Ctrl
  | .raw _ => none
  | .ctx _ _ c => some c

/-- In a non-queue lane, every child input is a context object carrying the
lane's single `state` value and its `controller`. -/
theorem runTasksGo_false_inputs (input : JsValue) (ctrl : Ctrl) (state : JsValue) :
    ∀ (pending : List JsAction) (idx : Nat) (last : JsValue),
      (runTasksGo false input ctrl state pending idx last).childInputs.map
          ChildInput.stateOf =
        List.replicate
          (runTasksGo false input ctrl state pending idx last).childInputs.length
          (some state) ∧
      (runTasksGo false input ctrl state pending idx last).childInputs.map
          ChildInput.ctrlOf =
        List.replicate
          (runTasksGo false input ctrl state pending idx last).childInputs.length
          (some ctrl)
  | [], idx, last => by simp [runTasksGo]
  | act :: pending, idx, last => by
      have ih := runTasksGo_false_inputs input ctrl state pending (idx + 1)
      simp only [runTasksGo, mkChildInput]
      cases hact : act (ChildInput.ctx state last ctrl) with
      | error e => simp [hact, ChildInput.stateOf, ChildInput.ctrlOf]
      | ok v =>
          simpa [hact, ChildInput.stateOf, ChildInput.ctrlOf, List.replicate_succ] using ih v

/-- In a queue-mode lane, every child input is the raw run input. -/
theorem runTasksGo_true_inputs (input : JsValue) (ctrl : Ctrl) (state : JsValue) :
    ∀ (pending : List JsAction) (idx : Nat) (last : JsValue),
      (runTasksGo true input ctrl state pending idx last).childInputs =
        List.replicate
          (runTasksGo true input ctrl state pending idx last).childInputs.length
          (ChildInput.raw input)
  | [], idx, last => by simp [runTasksGo]
  | act :: pending, idx, last => by
      have ih := runTasksGo_true_inputs input ctrl state pending (idx + 1)
      simp only [runTasksGo, mkChildInput]
      cases hact : act (ChildInput.raw input) with
      | error e => simp [hact]
      | ok v => simpa [hact, List.replicate_succ] using ih v

/-- A run that returns normally completed every queued child. -/
theorem runTasksGo_ok_lengths (isQ : Bool) (input : JsValue) (ctrl : Ctrl)
    (state : JsValue) :
    ∀ (pending : List JsAction) (idx : Nat) (last v : JsValue),
      (runTasksGo isQ input ctrl state pending idx last).result = .ok v →
      (runTasksGo isQ input ctrl state pending idx last).childResults.length =
          pending.length ∧
      (runTasksGo isQ input ctrl state pending idx last).childInputs.length =
          pending.length
  | [], idx, last, v, _ => by simp [runTasksGo]
  | act :: pending, idx, last, v, hv => by
      have ih := runTasksGo_ok_lengths isQ input ctrl state pending (idx + 1)
      revert hv
      simp only [runTasksGo]
      cases hact : act (mkChildInput isQ input state last ctrl) with
      | error e => simp [hact]
      | ok w =>
          simp only [hact]
          intro hv
          simp at hv ⊢
          exact ih w v hv

/-- In a non-queue lane that returns normally, the `previousResult` seen by
each child after the first is exactly the preceding child's result. -/
theorem runTasksGo_ok_chain (input : JsValue) (ctrl : Ctrl) (state : JsValue) :
    ∀ (pending : List JsAction) (idx : Nat) (last v : JsValue),
      (runTasksGo false input ctrl state pending idx last).result = .ok v →
      (runTasksGo false input ctrl state pending idx last).childInputs.tail =
        ((runTasksGo false input ctrl state pending idx last).childResults.dropLast).map
          (fun r => ChildInput.ctx state r ctrl)
  | [], idx, last, v, _ => by simp [runTasksGo]
  | act :: pending, idx, last, v, hv => by
      revert hv
      simp only [runTasksGo]
      cases hact : act (mkChildInput false input state last ctrl) with
      | error e => simp [hact]
      | ok w =>
          simp only [hact]
          intro hv
          have ih := runTasksGo_ok_chain input ctrl state pending (idx + 1) w v hv
          have hlen := runTasksGo_ok_lengths false input ctrl state pending (idx + 1) w v hv
          cases hp : pending with
          | nil =>
              subst hp
              simp [runTasksGo] at ih ⊢
          | cons act2 pending2 =>
              subst hp
              -- the recursive trace is non-empty, so dropLast keeps the head
              have h1 : (runTasksGo false input ctrl state (act2 :: pending2)
                  (idx + 1) w).childResults ≠ [] := by
                intro hnil
                have := hlen.1
                rw [hnil] at this
                simp at this
              have h2 : (runTasksGo false input ctrl state (act2 :: pending2)
                  (idx + 1) w).childInputs.head? =
                  some (ChildInput.ctx state w ctrl) := by
                simp only [runTasksGo]
                cases hact2 : act2 (mkChildInput false input state w ctrl) with
                | error e => simp [hact2, mkChildInput]
                | ok u => simp [hact2, mkChildInput]
              simp only [List.tail_cons]
              rw [List.dropLast_cons_of_ne_nil h1]
              cases hci : (runTasksGo false input ctrl state (act2 :: pending2)
                  (idx + 1) w).childInputs with
              | nil =>
                  rw [hci] at h2
                  simp at h2
              | cons ci cis =>
                  rw [hci] at h2 ih
                  simp at h2
                  subst h2
                  cases hcr : (runTasksGo false input ctrl state (act2 :: pending2)
                      (idx + 1) w).childResults with
                  | nil => exact absurd hcr h1
                  | cons r rs =>
                      rw [hcr] at ih
                      simp only [List.tail_cons] at ih
                      simp only [List.map_cons]
                      exact congrArg (List.cons (ChildInput.ctx state w ctrl)) ih

/-- A run that returns normally returns the accumulator it started with
(empty queue) or the last child's result. -/
theorem runTasksGo_ok_last (isQ : Bool) (input : JsValue) (ctrl : Ctrl)
    (state : JsValue) :
    ∀ (pending : List JsAction) (idx : Nat) (last v : JsValue),
      (runTasksGo isQ input ctrl state pending idx last).result = .ok v →
      (pending = [] ∧ v = last) ∨
        (runTasksGo isQ input ctrl state pending idx last).childResults.getLast? =
          some v
  | [], idx, last, v, hv => by
      simp [runTasksGo] at hv
      simp [hv]
  | act :: pending, idx, last, v, hv => by
      revert hv
      simp only [runTasksGo]
      cases hact : act (mkChildInput isQ input state last ctrl) with
      | error e => simp [hact]
      | ok w =>
          simp only [hact]
          intro hv
          have ih := runTasksGo_ok_last isQ input ctrl state pending (idx + 1) w v hv
          right
          cases ih with
          | inl h =>
              rcases h with ⟨hp, hw⟩
              subst hp
              subst hw
              simp [runTasksGo]
          | inr h =>
              cases hcr : (runTasksGo isQ input ctrl state pending (idx + 1)
                  w).childResults with
              | nil =>
                  rw [hcr] at h
                  simp at h
              | cons r rs =>
                  rw [hcr] at h
                  rw [List.getLast?_cons_cons]
                  exact h

/-- A run that returns normally emitted `progress` once per child, carrying
the consecutive pre-increment cursor values. -/
theorem runTasksGo_ok_progress (isQ : Bool) (input : JsValue) (ctrl : Ctrl)
    (state : JsValue) :
    ∀ (pending : List JsAction) (idx : Nat) (last v : JsValue),
      (runTasksGo isQ input ctrl state pending idx last).result = .ok v →
      (runTasksGo isQ input ctrl state pending idx last).progressEvents =
        List.range' idx pending.length
  | [], idx, last, v, _ => by simp [runTasksGo]
  | act :: pending, idx, last, v, hv => by
      revert hv
      simp only [runTasksGo]
      cases hact : act (mkChildInput isQ input state last ctrl) with
      | error e => simp [hact]
      | ok w =>
          simp only [hact]
          intro hv
          have ih := runTasksGo_ok_progress isQ input ctrl state pending (idx + 1) w v hv
          simp [ih, List.range'_succ]

/-- The first child of a non-empty queue receives the loop's entry
accumulator, whatever the run's outcome. -/
theorem runTasksGo_head_input (isQ : Bool) (input : JsValue) (ctrl : Ctrl)
    (state : JsValue) (act : JsAction) (pending : List JsAction) (idx : Nat)
    (last : JsValue) :
    (runTasksGo isQ input ctrl state (act :: pending) idx last).childInputs.head? =
      some (mkChildInput isQ input state last ctrl) := by
  simp only [runTasksGo]
  cases hact : act (mkChildInput isQ input state last ctrl) with
  | error e => simp [hact]
  | ok w => simp [hact]

/-- A run that throws does so because exactly one child's action threw that
very value: one `'error'` signal is emitted, and some child's final state
records the error with status `'error'`. -/
theorem runTasksGo_error (isQ : Bool) (input : JsValue) (ctrl : Ctrl)
    (state : JsValue) :
    ∀ (pending : List JsAction) (idx : Nat) (last : JsValue) (e : JsValue),
      (runTasksGo isQ input ctrl state pending idx last).result = .error e →
      (runTasksGo isQ input ctrl state pending idx last).errorEvents = [e] ∧
      ∃ k, (runTasksGo isQ input ctrl state pending idx last).finalStates.get? k =
          some (failState e)
  | [], idx, last, e, hv => by simp [runTasksGo] at hv
  | act :: pending, idx, last, e, hv => by
      revert hv
      simp only [runTasksGo]
      cases hact : act (mkChildInput isQ input state last ctrl) with
      | error e2 =>
          simp only [hact]
          intro hv
          simp at hv
          subst hv
          refine ⟨rfl, 0, ?_⟩
          simp
      | ok w =>
          simp only [hact]
          intro hv
          have ih := runTasksGo_error isQ input ctrl state pending (idx + 1) w e hv
          refine ⟨ih.1, ?_⟩
          rcases ih.2 with ⟨k, hk⟩
          exact ⟨k + 1, by simpa using hk⟩

/-- `Promise.all` rejects with the first rejection when everything settling
before it resolved. -/
theorem promiseAll_first_error (e : JsValue) :
    ∀ (pre post : List (Except JsValue JsValue)),
      (∀ x ∈ pre, ∃ w, x = Except.ok w) →
      promiseAll (pre ++ .error e :: post) = .error e
  | [], _, _ => rfl
  | x :: pre, post, h => by
      rcases h x (by simp) with ⟨w, hw⟩
      subst hw
      have ih := promiseAll_first_error e pre post (fun y hy => h y (by simp [hy]))
      simp only [List.cons_append, promiseAll, List.append_eq, ih]
      rfl

/-!
## Lemmas about operation sequences on a `Task`
-/

/-- The value the last `progress` operation carried (or the default when
none occurs). -/
def lastProgress (d : Nat) : List TaskOp → Nat
  | [] => d
  | .progressOp n :: ops => lastProgress n ops
  | .executeOp _ :: ops => lastProgress d ops

/-- Execute-free operation sequences enter no status at all. -/
theorem runOps_trace_nil : ∀ (ops : List TaskOp), execCount ops = 0 →
    ∀ t : TaskState, (runOps t ops).2 = []
  | [], _, _ => rfl
  | .executeOp _ :: _, h, _ => by simp [execCount] at h
  | .progressOp n :: ops, h, t => by
      simp only [execCount] at h
      simp only [runOps, applyOp]
      simpa using runOps_trace_nil ops h _

/-- Execute-free operation sequences change neither status nor result nor
error. -/
theorem runOps_no_exec_preserves : ∀ (ops : List TaskOp), execCount ops = 0 →
    ∀ t : TaskState,
      (runOps t ops).1.status = t.status ∧
      (runOps t ops).1.result = t.result ∧
      (runOps t ops).1.error = t.error
  | [], _, _ => ⟨rfl, rfl, rfl⟩
  | .executeOp _ :: _, h, _ => by simp [execCount] at h
  | .progressOp n :: ops, h, t => by
      simp only [execCount] at h
      simpa [runOps, applyOp] using runOps_no_exec_preserves ops h { t with ticks := n }

/-- `runOps` over a concatenation runs the pieces in sequence. -/
theorem runOps_append : ∀ (ops1 ops2 : List TaskOp) (t : TaskState),
    runOps t (ops1 ++ ops2) =
      ((runOps (runOps t ops1).1 ops2).1,
       (runOps t ops1).2 ++ (runOps (runOps t ops1).1 ops2).2)
  | [], ops2, t => by simp [runOps]
  | op :: ops1, ops2, t => by
      have ih := runOps_append ops1 ops2 (applyOp t op).1
      simp only [List.cons_append, runOps, List.append_eq, ih]
      simp [List.append_assoc]

/-- `ticks` always holds exactly the last reported value. -/
theorem runOps_ticks : ∀ (ops : List TaskOp) (t : TaskState),
    (runOps t ops).1.ticks = lastProgress t.ticks ops
  | [], _ => rfl
  | .executeOp out :: ops, t => by
      cases out with
      | ok v => simpa [runOps, applyOp, lastProgress] using runOps_ticks ops _
      | error e => simpa [runOps, applyOp, lastProgress] using runOps_ticks ops _
  | .progressOp n :: ops, t => by
      simpa [runOps, applyOp, lastProgress] using runOps_ticks ops _

/-- With at most one execute operation, the statuses entered over a whole
operation sequence are nothing, or `'execute'` then `'done'`, or
`'execute'` then `'error'`. -/
theorem runOps_trace_shape : ∀ (ops : List TaskOp), execCount ops ≤ 1 →
    ∀ t : TaskState,
      (runOps t ops).2 = [] ∨
      (runOps t ops).2 = [.execute, .done] ∨
      (runOps t ops).2 = [.execute, .error]
  | [], _, _ => Or.inl rfl
  | .progressOp n :: ops, h, t => by
      simp only [execCount] at h
      simpa [runOps, applyOp] using runOps_trace_shape ops h { t with ticks := n }
  | .executeOp out :: ops, h, t => by
      simp only [execCount] at h
      have h0 : execCount ops = 0 := by omega
      cases out with
      | ok v =>
          right; left
          simp [runOps, applyOp, runOps_trace_nil ops h0]
      | error e =>
          right; right
          simp [runOps, applyOp, runOps_trace_nil ops h0]

/-!
## Claim theorems

The concrete actions used by witnesses and counterexamples.
-/

/-- An action that ignores its input and returns `1`. -/
def returnOneAct : JsAction := fun _ => .ok (.num 1)

/-- An action that ignores its input and returns `2`. -/
def returnTwoAct : JsAction := fun _ => .ok (.num 2)

/-- An action that adds `1` to the `previousResult` it was handed. -/
def addOneAct : JsAction := fun ci =>
  match ci with
  | .ctx _ (.num n) _ => .ok (.num (n + 1))
  | _ => .ok (.num 0)

/-- An action that throws. -/
def boomAct : JsAction := fun _ => .error (.str "boom")

/-- C1: the claim says mutation must succeed while the scope's status is
non-terminal and raise a structural error once it is `done`/`error`.  The
source's guard is inverted: evaluating `addTask`/`prependTask` shows the
structural error is thrown exactly while the scope is non-terminal
(`created`, `execute`), and on a terminal scope (`done`, `error`) the unit
is appended/inserted and `totalTicks` incremented. -/
theorem c1_mutation_guard_inverted_eval :
    (addTask { status := .created, tasks := [7], taskIndex := 0, totalTicks := 1 } 5 =
      .error structuralError) ∧
    (prependTask { status := .created, tasks := [7], taskIndex := 0, totalTicks := 1 } 5 =
      .error structuralError) ∧
    (addTask { status := .execute, tasks := [7], taskIndex := 0, totalTicks := 1 } 5 =
      .error structuralError) ∧
    (prependTask { status := .execute, tasks := [7], taskIndex := 0, totalTicks := 1 } 5 =
      .error structuralError) ∧
    (addTask { status := .done, tasks := [7], taskIndex := 0, totalTicks := 1 } 5 =
      .ok { status := .done, tasks := [7, 5], taskIndex := 0, totalTicks := 2 }) ∧
    (prependTask { status := .done, tasks := [7], taskIndex := 0, totalTicks := 1 } 5 =
      .ok { status := .done, tasks := [5, 7], taskIndex := 0, totalTicks := 2 }) ∧
    (addTask { status := .error, tasks := ([] : List Nat), taskIndex := 0, totalTicks := 0 } 5 =
      .ok { status := .error, tasks := [5], taskIndex := 0, totalTicks := 1 }) :=
  ⟨rfl, rfl, rfl, rfl, rfl, rfl, rfl⟩

/-- C2: the claim says a lane whose cursor reaches `|queue|` — including at
the very start of `run` on an empty queue — emits `'empty'`, marks itself
idle and suspends until resumed.  Evaluating the code on an empty queue:
the `while` guard fails immediately, so `run` returns `false` with no
`'empty'` emission, no suspension, and (for a paused pool lane) no idle
mark — the lane settles instead of idling, and the distributor's handler
is never entered (its drain cursor stays `0`). -/
theorem c2_empty_queue_no_idle_eval :
    ((runTasks false .null 0 []).emptyEvents = 0) ∧
    ((runTasks false .null 0 []).suspensions = 0) ∧
    ((runTasks false .null 0 []).result = .ok (.bool false)) ∧
    (let r := fedLaneExecute [fun _ => .ok (.num 1)] .null 3 (mkBucket 1 1) 0
     r.2.emptyEmits = 0 ∧ r.2.outcome = .finished (.ok (.bool false)) ∧
       r.1.qstate.taskIndex = 0 ∧ r.1.lanes.map (·.empty) = [false]) :=
  ⟨rfl, rfl, rfl, rfl, rfl, rfl, rfl⟩

/-- C3: the claim says the distributor's `'empty'` handler, while
`drainCursor < |queue|`, hands the idle lane one unit via `append` and
increments the cursor.  Evaluating the handler on a running lane
(status `'execute'`, the only status a lane emitting `'empty'` can have):
`addTask` throws the structural error through the inverted guard, the
drain cursor is nevertheless incremented (`this.tasks[this.taskIndex++]`
evaluates first), and the lane's queue receives nothing. -/
theorem c3_feed_throws_structural_eval :
    (let b : BucketSt :=
      { qstate := { status := .execute, tasks := [0, 1], taskIndex := 0, totalTicks := 2 }
        lanes := [{ status := .execute, tasks := [], taskIndex := 0, totalTicks := 0,
                    wait := true, empty := false }]
        childStates := [{}, {}] }
     (onEmpty b 0).2 = some structuralError ∧
       (onEmpty b 0).1.qstate.taskIndex = 1 ∧
       (onEmpty b 0).1.lanes = b.lanes) :=
  ⟨rfl, rfl, rfl⟩

/-- C4: the claim says a distributor with `p` lanes and `m > p` units
executes every unit exactly once.  Evaluating a full distributor run with
`p = 1`, `m = 2`: both pool lanes start with empty queues, so each lane's
loop exits immediately without ever emitting `'empty'`; no unit is ever
assigned (drain cursor stays `0`), both children finish the run still in
status `'created'` having executed zero times, and the distributor
resolves with `[undefined, undefined]`. -/
theorem c4_no_unit_ever_executes_eval :
    (let run := bucketRunTasks 1 [fun _ => .ok (.num 10), fun _ => .ok (.num 20)] .null none
     run.reports.map (·.executed) = [[]] ∧
       run.bucket.qstate.taskIndex = 0 ∧
       run.bucket.childStates.map (·.status) = [.created, .created] ∧
       run.result = some (.ok (.arr [.undef, .undef]))) :=
  ⟨rfl, rfl, rfl, rfl⟩

/-- C5: in any non-queue lane run that resolves, each child after the
first sees as `last` (`previousResult`) exactly the preceding child's
result — the inputs after the head are precisely the context objects built
from the results with the final one dropped — and the lane's own resolved
value is the last child's result. -/
theorem c5_lane_threads_results (input : JsValue) (ctrl : Ctrl)
    (actions : List JsAction) (v : JsValue) (hn : 0 < actions.length)
    (hv : (runTasks false input ctrl actions).result = .ok v) :
    (runTasks false input ctrl actions).childInputs.tail =
      ((runTasks false input ctrl actions).childResults.dropLast).map
        (fun r => ChildInput.ctx (stateInit input) r ctrl) ∧
    (runTasks false input ctrl actions).childResults.getLast? = some v := by
  have hv' : (runTasksGo false input ctrl (stateInit input) actions 0
      (.bool false)).result = .ok v := hv
  refine ⟨runTasksGo_ok_chain input ctrl (stateInit input) actions 0 _ v hv', ?_⟩
  have h := runTasksGo_ok_last false input ctrl (stateInit input) actions 0
    (.bool false) v hv'
  cases h with
  | inl h =>
      rw [h.1] at hn
      simp at hn
  | inr h => exact h

/-- Witness for C5 at a concrete two-child lane (`return 1`, then
`add 1 to previousResult`): the lane resolves with the last child's
result `2`. -/
theorem c5_lane_threads_results_witness :
    (runTasks false .null 0 [returnOneAct, addOneAct]).childResults.getLast? =
      some (.num 2) :=
  (c5_lane_threads_results .null 0 [returnOneAct, addOneAct] (.num 2)
    (by decide) rfl).2

/-- C6 counterexample: the claim says `progress` carries the values
`1, …, n`; on a one-unit lane the single `progress` emission carries `0`
(the source passes the pre-increment cursor, `this.progress(this.taskIndex++)`),
not `1`. -/
theorem c6_progress_starts_at_zero_cex :
    (runTasks false .null 0 [returnOneAct]).progressEvents = [0] ∧
    ([0] : List Nat) ≠ [1] :=
  ⟨rfl, by decide⟩

/-- C6 amended: for a lane with `n` units that all succeed, `progress`
fires exactly `n` times with strictly increasing values `0, …, n-1`
(each emission carries the pre-increment cursor, the count of children
completed minus one). -/
theorem c6_progress_fires_range (input : JsValue) (ctrl : Ctrl)
    (actions : List JsAction) (v : JsValue)
    (hv : (runTasks false input ctrl actions).result = .ok v) :
    (runTasks false input ctrl actions).progressEvents =
      List.range actions.length := by
  have h := runTasksGo_ok_progress false input ctrl (stateInit input) actions 0
    (.bool false) v hv
  rw [List.range_eq_range']
  exact h

/-- Witness for C6 (amended) on a two-unit lane: `progress` carries
`[0, 1]`. -/
theorem c6_progress_fires_range_witness :
    (runTasks false .null 0 [returnOneAct, returnTwoAct]).progressEvents =
      List.range 2 :=
  c6_progress_fires_range .null 0 [returnOneAct, returnTwoAct] (.num 2) rfl

/-- C7 counterexample: the claim says children of a pool-member lane also
receive the `{state, last, controller}` context object.  The distributor
constructs its lanes with `isQueue: true`, and in that mode the child
receives the lane's raw run input (`this.isQueue ? input : {state, last,
controller}`): the single child input of a queue-mode lane is not a
context object. -/
theorem c7_pool_child_gets_raw_input_cex :
    (runTasks true (.num 7) 0 [returnOneAct]).childInputs.map ChildInput.isCtx =
      [false] ∧
    (runTasks true (.num 7) 0 [returnOneAct]).childInputs.length = 1 :=
  ⟨rfl, rfl⟩

/-- C7 amended: children of a non-queue Sequential lane each receive the
context object `{state, last, controller}` — the same threaded `state`
accumulator and the lane's `controller` (feed target) in every one — while
children of a queue-mode lane (the distributor's pool members) receive the
lane's run input unchanged. -/
theorem c7_child_input_by_mode (input : JsValue) (ctrl : Ctrl)
    (actions : List JsAction) :
    ((runTasks false input ctrl actions).childInputs.map ChildInput.stateOf =
      List.replicate (runTasks false input ctrl actions).childInputs.length
        (some (stateInit input))) ∧
    ((runTasks false input ctrl actions).childInputs.map ChildInput.ctrlOf =
      List.replicate (runTasks false input ctrl actions).childInputs.length
        (some ctrl)) ∧
    ((runTasks true input ctrl actions).childInputs =
      List.replicate (runTasks true input ctrl actions).childInputs.length
        (ChildInput.raw input)) :=
  ⟨(runTasksGo_false_inputs input ctrl (stateInit input) actions 0 (.bool false)).1,
   (runTasksGo_false_inputs input ctrl (stateInit input) actions 0 (.bool false)).2,
   runTasksGo_true_inputs input ctrl (stateInit input) actions 0 (.bool false)⟩

/-- C8: when a child's action throws `e`, that child's final state is
`failed` with `error = e`, one `'error'` signal carrying `e` is emitted,
the owning lane's execution rejects with `e` and the lane ends failed with
`error = e`; one level up, an aggregate wait whose earlier members
resolved rejects with `e`, and an execution awaiting that rejection also
ends failed with `error = e`. -/
theorem c8_failure_propagation (isQ : Bool) (input : JsValue) (ctrl : Ctrl)
    (actions : List JsAction) (e : JsValue)
    (hv : (runTasks isQ input ctrl actions).result = .error e) :
    (∃ k, (runTasks isQ input ctrl actions).finalStates.get? k =
        some (failState e)) ∧
    (runTasks isQ input ctrl actions).errorEvents = [e] ∧
    (laneExecute isQ input ctrl actions).1.status = .error ∧
    (laneExecute isQ input ctrl actions).1.error = some e ∧
    (∀ pre post, (∀ x ∈ pre, ∃ w, x = Except.ok w) →
      promiseAll (pre ++ .error e :: post) = .error e) ∧
    (∀ t : TaskState, (applyOp t (.executeOp (.error e))).1.status = .error ∧
      (applyOp t (.executeOp (.error e))).1.error = some e) := by
  have h := runTasksGo_error isQ input ctrl (stateInit input) actions 0
    (.bool false) e hv
  refine ⟨h.2, h.1, ?_, ?_, promiseAll_first_error e, fun t => ⟨rfl, rfl⟩⟩
  · simp [laneExecute, hv]
  · simp [laneExecute, hv]

/-- Witness for C8 at a one-child lane whose action throws `"boom"`: the
lane ends failed carrying that error. -/
theorem c8_failure_propagation_witness :
    (laneExecute false .null 0 [boomAct]).1.status = .error ∧
    (laneExecute false .null 0 [boomAct]).1.error = some (.str "boom") := by
  have h := c8_failure_propagation false .null 0 [boomAct] (.str "boom") rfl
  exact ⟨h.2.2.1, h.2.2.2.1⟩

/-- C9 counterexample: the claim quantifies over any sequence of public
operations.  Concretely: two `reportProgress` calls `5` then `3` leave
`ticks = 3 < 5` on a `tracksProgress` task (monotonicity is not enforced),
and a second `execute` after `done` re-enters `'execute'` and overwrites
the stored result, so terminal states are not absorbing under the public
operations. -/
theorem c9_lifecycle_cex :
    (let t0 : TaskState := { isTicking := true }
     (runOps t0 [.progressOp 5]).1.ticks = 5 ∧
       (runOps t0 [.progressOp 5, .progressOp 3]).1.ticks = 3 ∧
       t0.isTicking = true ∧
       (runOps t0 [.executeOp (.ok (.num 1))]).1.status = .done ∧
       (runOps t0 [.executeOp (.ok (.num 1))]).1.result = some (.num 1) ∧
       (runOps t0 [.executeOp (.ok (.num 1)), .executeOp (.ok (.num 2))]).2 =
         [.execute, .done, .execute, .done] ∧
       (runOps t0 [.executeOp (.ok (.num 1)), .executeOp (.ok (.num 2))]).1.result =
         some (.num 2)) :=
  ⟨rfl, rfl, rfl, rfl, rfl, rfl, rfl⟩

/-- C9 amended: starting from `created`, as long as `execute` is invoked
at most once the statuses entered are exactly
`created → executing → done|failed` (or a prefix); operations after the
last execute never change status, result or error (so a terminal state's
result/error are final against further `reportProgress`/reads); and
`ticks` always equals the value the most recent `reportProgress` supplied —
the code stores it verbatim, enforcing no monotonicity. -/
theorem c9_single_use_lifecycle (t0 : TaskState) (ops : List TaskOp)
    (h0 : t0.status = .created) (h1 : execCount ops ≤ 1) :
    (t0.status :: (runOps t0 ops).2 = [.created] ∨
     t0.status :: (runOps t0 ops).2 = [.created, .execute, .done] ∨
     t0.status :: (runOps t0 ops).2 = [.created, .execute, .error]) ∧
    (∀ ops1 ops2, ops = ops1 ++ ops2 → execCount ops2 = 0 →
      (runOps t0 ops).1.status = (runOps t0 ops1).1.status ∧
      (runOps t0 ops).1.result = (runOps t0 ops1).1.result ∧
      (runOps t0 ops).1.error = (runOps t0 ops1).1.error) ∧
    (runOps t0 ops).1.ticks = lastProgress t0.ticks ops := by
  refine ⟨?_, ?_, runOps_ticks ops t0⟩
  · rw [h0]
    rcases runOps_trace_shape ops h1 t0 with h | h | h <;> rw [h] <;> simp
  · intro ops1 ops2 hsplit h2
    subst hsplit
    rw [runOps_append ops1 ops2 t0]
    exact runOps_no_exec_preserves ops2 h2 (runOps t0 ops1).1

/-- Witness for C9 (amended) on the sequence
`reportProgress 2; execute (ok null); reportProgress 7`: the task passes
through `created → execute → done` and ends with `ticks = 7`. -/
theorem c9_single_use_lifecycle_witness :
    (TaskState.status { isTicking := true } ::
        (runOps { isTicking := true }
          [.progressOp 2, .executeOp (.ok .null), .progressOp 7]).2 =
          [.created] ∨
     TaskState.status { isTicking := true } ::
        (runOps { isTicking := true }
          [.progressOp 2, .executeOp (.ok .null), .progressOp 7]).2 =
          [.created, .execute, .done] ∨
     TaskState.status { isTicking := true } ::
        (runOps { isTicking := true }
          [.progressOp 2, .executeOp (.ok .null), .progressOp 7]).2 =
          [.created, .execute, .error]) ∧
    (runOps { isTicking := true }
        [.progressOp 2, .executeOp (.ok .null), .progressOp 7]).1.ticks =
      lastProgress 0 [.progressOp 2, .executeOp (.ok .null), .progressOp 7] := by
  have h := c9_single_use_lifecycle { isTicking := true }
    [.progressOp 2, .executeOp (.ok .null), .progressOp 7] rfl (by decide)
  exact ⟨h.1, h.2.2⟩

/-- C10: a directly executed (non-queue) lane hands its first child the
context `{state, last, controller}` where `last` is the sentinel `false`
and `state` is a fresh empty object when the run input is falsy and the
run input value itself otherwise (`let state = input || {}`). -/
theorem c10_initial_context (input : JsValue) (ctrl : Ctrl)
    (actions : List JsAction) (hn : actions ≠ []) :
    (runTasks false input ctrl actions).childInputs.head? =
      some (.ctx (stateInit input) (.bool false) ctrl) ∧
    (input.isFalsy = true → stateInit input = .obj []) ∧
    (input.isFalsy = false → stateInit input = input) := by
  refine ⟨?_, fun h => by simp [stateInit, h], fun h => by simp [stateInit, h]⟩
  cases actions with
  | nil => exact absurd rfl hn
  | cons act pending =>
      have h := runTasksGo_head_input false input ctrl (stateInit input) act
        pending 0 (.bool false)
      simpa [mkChildInput] using h

/-- Witness for C10 at a falsy input (`null`) on a one-child lane: the
first child input is `{state: {}, last: false, controller}`. -/
theorem c10_initial_context_witness :
    (runTasks false .null 0 [returnOneAct]).childInputs.head? =
      some (.ctx (.obj []) (.bool false) 0) := by
  have h := c10_initial_context .null 0 [returnOneAct] (by simp)
  simpa [stateInit] using h.1
